import Mathlib

/-!
Shallow embedding of the wishlist bot's access-control / sharing subsystem and
item filter engine (src/database/crud.py, src/handlers/access_codes.py,
src/handlers/categories.py, src/handlers/add_category.py, src/utils/helpers.py),
with theorems settling the frozen claims about them.

Modelling conventions:
  - SQL rows become Lean structures; the relational store becomes a `DB` record
    of lists; `scalar_one_or_none` becomes `List.find?`.
  - SQL three-valued comparisons on nullable columns: a comparison with NULL is
    not satisfied, so `Option` matches return `false` for `none`.
  - Python dict filter values: `filters.get(k)` is an `Option`; the code guards
    each clause with Python truthiness (`0`, `0.0`, `""`, `None` are falsy).
  - Prices (SQL Float) are modelled as `Int`; datetimes as `Nat` timestamps
    (e.g. 20250110 for 2025-01-10; the encoding is order-preserving).
  - `secrets.choice` randomness is a caller-supplied choice function.
-/

/-- Sharing mode of a category; stored as the strings
"private" / "view_only" / "collaborative" in `Category.sharing_type`. -/
inductive SharingType where
  | priv
  | view_only
  | collaborative
deriving DecidableEq, Repr

/-- Row of the `users` table (columns the claims need). -/
structure User where
  id : Nat := 0
  telegram_id : Nat := 0
  notifications_enabled : Bool := true
deriving DecidableEq, Repr

/-- Row of the `categories` table. `share_link` is the nullable unique share
code column. -/
structure Category where
  id : Nat := 0
  name : String := ""
  owner_id : Nat := 0
  sharing_type : SharingType := .priv
  share_link : Option String := none
deriving DecidableEq, Repr

/-- Row of the `items` table (columns used by `ItemCRUD.filter_items`). -/
structure Item where
  id : Nat := 0
  name : String := ""
  category_id : Nat := 0
  owner_id : Nat := 0
  tags : Option String := none
  price : Option Int := none
  location_type : Option String := none
  location_value : Option String := none
  date_from : Option Nat := none
  date_to : Option Nat := none
  product_type : String := ""
  created_at : Nat := 0
deriving DecidableEq, Repr

/-- Row of the `shared_categories` table (a SharedAccess grant). -/
structure SharedCategory where
  id : Nat := 0
  category_id : Nat := 0
  user_id : Nat := 0
  can_edit : Bool := false
deriving DecidableEq, Repr

/-- The relational store: one list per table, plus primary-key counters. -/
structure DB where
  users : List User := []
  categories : List Category := []
  items : List Item := []
  shared : List SharedCategory := []
  next_category_id : Nat := 1
  next_shared_id : Nat := 1
deriving DecidableEq, Repr

/-- The `filters` dict passed to `ItemCRUD.filter_items`; absent keys are
`none`. -/
structure Filters where
  category_id : Option Nat := none
  tag : Option String := none
  price_min : Option Int := none
  price_max : Option Int := none
  price_exact : Option Int := none
  location_type : Option String := none
  location_value : Option String := none
  date_from : Option Nat := none
  date_to : Option Nat := none
  product_type : Option String := none
deriving DecidableEq, Repr

/-- Python truthiness of an optional int (`0` and `None` are falsy). -/
def truthyInt : Option Int → Bool
  | some v => v != 0
  | none => false

/-- Python truthiness of an optional non-negative integer key. -/
def truthyNat : Option Nat → Bool
  | some v => v != 0
  | none => false

/-- Python truthiness of an optional string (`""` and `None` are falsy). -/
def truthyStr : Option String → Bool
  | some s => !s.isEmpty
  | none => false

/-- Python truthiness of an optional datetime (any datetime is truthy). -/
def truthyDate : Option Nat → Bool
  | some _ => true
  | none => false

/-- SQL `col >= v` on a nullable numeric column: NULL satisfies nothing. -/
def sqlGeInt : Option Int → Int → Bool
  | some p, v => v ≤ p
  | none, _ => false

/-- SQL `col <= v` on a nullable numeric column. -/
def sqlLeInt : Option Int → Int → Bool
  | some p, v => p ≤ v
  | none, _ => false

/-- SQL `col == v` on a nullable numeric column. -/
def sqlEqInt : Option Int → Int → Bool
  | some p, v => p == v
  | none, _ => false

/-- SQL `col >= v` on a nullable datetime column. -/
def sqlGeDate : Option Nat → Nat → Bool
  | some d, v => v ≤ d
  | none, _ => false

/-- SQL `col <= v` on a nullable datetime column. -/
def sqlLeDate : Option Nat → Nat → Bool
  | some d, v => d ≤ v
  | none, _ => false

/-- SQL `col == v` on a nullable string column. -/
def sqlEqStr : Option String → String → Bool
  | some s, v => s == v
  | none, _ => false

/-- Whether `needle` is a contiguous run of `haystack`. -/
def charRunAt : List Char → List Char → Bool
  | [], _ => true
  | _ :: _, [] => false
  | a :: as, b :: bs => a == b && charRunAt as bs

/-- Containment of one character list in another. -/
def charRunIn (needle : List Char) : List Char → Bool
  | [] => charRunAt needle []
  | b :: bs => charRunAt needle (b :: bs) || charRunIn needle bs

/-- SQL `tags ILIKE '%needle%'` on the nullable serialized tag column:
case-insensitive substring containment, NULL matches nothing. -/
def sqlIlike : Option String → String → Bool
  | some s, needle => charRunIn needle.toLower.toList s.toLower.toList
  | none, _ => false

/-- The WHERE clauses that `ItemCRUD.filter_items` appends for the provided
filters: each key contributes a conjunct only when its value is truthy. -/
def filter_clauses (filters : Filters) (i : Item) : Bool :=
  (if truthyNat filters.category_id then i.category_id == filters.category_id.getD 0 else true) &&
  (if truthyStr filters.tag then sqlIlike i.tags (filters.tag.getD "") else true) &&
  (if truthyInt filters.price_min then sqlGeInt i.price (filters.price_min.getD 0) else true) &&
  (if truthyInt filters.price_max then sqlLeInt i.price (filters.price_max.getD 0) else true) &&
  (if truthyInt filters.price_exact then sqlEqInt i.price (filters.price_exact.getD 0) else true) &&
  (if truthyStr filters.location_type then sqlEqStr i.location_type (filters.location_type.getD "") else true) &&
  (if truthyStr filters.location_value then sqlEqStr i.location_value (filters.location_value.getD "") else true) &&
  (if truthyDate filters.date_from then sqlGeDate i.date_from (filters.date_from.getD 0) else true) &&
  (if truthyDate filters.date_to then
    (sqlLeDate i.date_to (filters.date_to.getD 0) ||
      (i.date_to == none && sqlLeDate i.date_from (filters.date_to.getD 0)))
   else true) &&
  (if truthyStr filters.product_type then i.product_type == filters.product_type.getD "" else true)

/-- The category ids the user holds a SharedAccess grant on (the subquery
`select(SharedCategory.category_id).where(SharedCategory.user_id == user_id)`). -/
def shared_category_ids (db : DB) (user_id : Nat) : List Nat :=
  (db.shared.filter (fun s => s.user_id == user_id)).map (fun s => s.category_id)

/-- The base visibility clause of `ItemCRUD.filter_items`:
`or_(Item.owner_id == user_id, Item.category_id.in_(shared_category_ids))`. -/
def filter_items_base (db : DB) (user_id : Nat) (i : Item) : Bool :=
  i.owner_id == user_id || (shared_category_ids db user_id).contains i.category_id

/-- Insertion step of the `created_at` descending ordering. -/
def insertByCreatedDesc (x : Item) : List Item → List Item
  | [] => [x]
  | y :: ys => if y.created_at ≤ x.created_at then x :: y :: ys else y :: insertByCreatedDesc x ys

/-- The `order_by(Item.created_at.desc())` ordering (insertion sort, so every
definition here stays kernel-computable). -/
def sortByCreatedDesc : List Item → List Item
  | [] => []
  | x :: xs => insertByCreatedDesc x (sortByCreatedDesc xs)

/-- `ItemCRUD.filter_items`: the base visibility set narrowed by the truthy
filters, ordered by `created_at` descending. -/
def filter_items (db : DB) (user_id : Nat) (filters : Filters) : List Item :=
  sortByCreatedDesc ((db.items.filter (filter_items_base db user_id)).filter
    (filter_clauses filters))

/-- `ItemCRUD.get_items_accessible_to_user`: like `filter_items`' base set but
the category arm also admits categories the user owns. -/
def get_items_accessible_to_user (db : DB) (user_id : Nat) : List Item :=
  let cat_ids := (db.categories.filter (fun c =>
    c.owner_id == user_id || (shared_category_ids db user_id).contains c.id)).map (fun c => c.id)
  sortByCreatedDesc (db.items.filter (fun i =>
    i.owner_id == user_id || cat_ids.contains i.category_id))

/-- `CategoryCRUD.get_category_by_id`. -/
def get_category_by_id (db : DB) (category_id : Nat) : Option Category :=
  db.categories.find? (fun c => c.id == category_id)

/-- `CategoryCRUD.get_category_by_share_link`: SQL equality with the non-null
code, so a NULL `share_link` never matches. -/
def get_category_by_share_link (db : DB) (share_link : String) : Option Category :=
  db.categories.find? (fun c => c.share_link == some share_link)

/-- `CategoryCRUD.update_category_sharing`: one UPDATE setting both
`sharing_type` and `share_link` on the matching category. -/
def update_category_sharing (db : DB) (category_id : Nat) (sharing_type : SharingType)
    (share_link : Option String) : DB :=
  { db with categories := db.categories.map (fun c =>
      if c.id == category_id then { c with sharing_type := sharing_type, share_link := share_link } else c) }

/-- `CategoryCRUD.update_share_link`: UPDATE of `share_link` alone. -/
def update_share_link (db : DB) (category_id : Nat) (share_link : Option String) : DB :=
  { db with categories := db.categories.map (fun c =>
      if c.id == category_id then { c with share_link := share_link } else c) }

/-- `CategoryCRUD.revoke_all_shares`: DELETE of every SharedAccess row of the
category. -/
def revoke_all_shares (db : DB) (category_id : Nat) : DB :=
  { db with shared := db.shared.filter (fun s => !(s.category_id == category_id)) }

/-- `CategoryCRUD.check_user_access`: the grant for (category, user), if any. -/
def check_user_access (db : DB) (category_id : Nat) (user_id : Nat) : Option SharedCategory :=
  db.shared.find? (fun s => s.category_id == category_id && s.user_id == user_id)

/-- `CategoryCRUD.add_user_access`: reuses (and possibly edits in place) an
existing grant for the pair, inserting a fresh row only when none exists. -/
def add_user_access (db : DB) (category_id : Nat) (user_id : Nat) (can_edit : Bool) :
    DB × SharedCategory :=
  match check_user_access db category_id user_id with
  | some existing =>
    if existing.can_edit != can_edit then
      let updated := { existing with can_edit := can_edit }
      ({ db with shared := db.shared.map (fun s => if s.id == existing.id then updated else s) }, updated)
    else
      (db, existing)
  | none =>
    let shared_category : SharedCategory :=
      { id := db.next_shared_id, category_id := category_id, user_id := user_id, can_edit := can_edit }
    ({ db with shared := db.shared ++ [shared_category], next_shared_id := db.next_shared_id + 1 },
      shared_category)

/-- Default of `config.ACCESS_CODE_LENGTH`. -/
def ACCESS_CODE_LENGTH : Nat := 10

/-- The unambiguous alphabet of `utils.helpers.generate_secure_code`
("ABCDEFGHJKLMNPQRSTUVWXYZ23456789": no 0, O, 1, I). -/
def CODE_ALPHABET : List Char :=
  ['A','B','C','D','E','F','G','H','J','K','L','M','N','P','Q','R','S','T',
   'U','V','W','X','Y','Z','2','3','4','5','6','7','8','9']

/-- Errors raised by the code-generation path: `ValueError` for a non-positive
length, `RuntimeError("Unable to generate unique share code")` on exhaustion,
`ValueError("Category not found")` from `ensure_share_code`. -/
inductive CodeError where
  | invalidLength
  | exhausted
  | categoryNotFound
deriving DecidableEq, Repr

/-- The joined string of `length` draws from the alphabet. -/
def secure_code_value (length : Nat) (choice : Nat → Fin CODE_ALPHABET.length) : String :=
  String.mk ((List.range length).map (fun i => CODE_ALPHABET.get (choice i)))

/-- `utils.helpers.generate_secure_code`: `length` independent draws from the
alphabet; the draws come from the caller-supplied `choice` stream standing in
for `secrets.choice`. -/
def generate_secure_code (length : Nat) (choice : Nat → Fin CODE_ALPHABET.length) :
    Except CodeError String :=
  if length = 0 then .error .invalidLength
  else .ok (secure_code_value length choice)

/-- The retry loop of `CategoryCRUD.generate_unique_share_code` over the listed
attempt indices; each attempt draws a fresh code and keeps it only when no
category already holds it. -/
def generate_unique_share_code_loop (db : DB) (length : Nat)
    (choices : Nat → Nat → Fin CODE_ALPHABET.length) : List Nat → Except CodeError String
  | [] => .error .exhausted
  | attempt :: rest => do
    let code ← generate_secure_code length (choices attempt)
    if (get_category_by_share_link db code).isNone then
      .ok code
    else
      generate_unique_share_code_loop db length choices rest

/-- `CategoryCRUD.generate_unique_share_code`: `for _ in range(40)` around the
draw-and-check loop. -/
def generate_unique_share_code (db : DB) (length : Nat)
    (choices : Nat → Nat → Fin CODE_ALPHABET.length) : Except CodeError String :=
  generate_unique_share_code_loop db length choices (List.range 40)

/-- `CategoryCRUD.ensure_share_code`: keep a truthy existing code of the wanted
length, otherwise generate a unique one and persist it; returns the code and
the resulting store. -/
def ensure_share_code (db : DB) (category_id : Nat) (length : Nat)
    (choices : Nat → Nat → Fin CODE_ALPHABET.length) : Except CodeError (String × DB) :=
  match get_category_by_id db category_id with
  | none => .error .categoryNotFound
  | some category =>
    match category.share_link with
    | some s =>
      if !s.isEmpty && s.length == length then
        .ok (s, db)
      else do
        let code ← generate_unique_share_code db length choices
        .ok (code, update_share_link db category_id (some code))
    | none => do
      let code ← generate_unique_share_code db length choices
      .ok (code, update_share_link db category_id (some code))

/-- Whether a sharing type is one of the two shared modes
(`["view_only", "collaborative"]`). -/
def SharingType.isShared : SharingType → Bool
  | .priv => false
  | .view_only => true
  | .collaborative => true

/-- The creation step of `handlers.add_category.process_category_sharing_type`:
`CategoryCRUD.create_category` followed, for shared types, by
`update_category_sharing` with the link `share_{id}_{random8}` (`rand` stands
for the uuid4 fragment). -/
def process_category_sharing_type (db : DB) (name : String) (owner_id : Nat)
    (sharing_type : SharingType) (rand : String) : DB × Category :=
  let category : Category :=
    { id := db.next_category_id, name := name, owner_id := owner_id,
      sharing_type := sharing_type, share_link := none }
  let db1 : DB := { db with categories := db.categories ++ [category],
                            next_category_id := db.next_category_id + 1 }
  if sharing_type.isShared then
    let share_link := "share_" ++ toString category.id ++ "_" ++ rand
    (update_category_sharing db1 category.id sharing_type (some share_link), category)
  else
    (db1, category)

/-- `handlers.categories.process_sharing_type_change`: issue or clear the share
code, persist the new sharing type, and on a shared-to-private transition
collect the grantees, revoke every grant and return the collected users.  A
`CodeError` raised by code generation is caught by the handler's `except`
before any write, leaving the store unchanged. -/
def process_sharing_type_change (db : DB) (category_id : Option Nat)
    (sharing_type : SharingType) (choices : Nat → Nat → Fin CODE_ALPHABET.length) :
    DB × List User :=
  match category_id with
  | none => (db, [])
  | some cid =>
    match get_category_by_id db cid with
    | none => (db, [])
    | some category =>
      let old_type := category.sharing_type
      let codeRes : Except CodeError (Option String) :=
        if sharing_type.isShared then
          match category.share_link with
          | some s => if !s.isEmpty then .ok (some s)
                      else (generate_unique_share_code db ACCESS_CODE_LENGTH choices).map some
          | none => (generate_unique_share_code db ACCESS_CODE_LENGTH choices).map some
        else .ok none
      match codeRes with
      | .error _ => (db, [])
      | .ok share_code =>
        let db1 := update_category_sharing db cid sharing_type share_code
        if old_type.isShared && sharing_type == .priv then
          let grantee_ids := (db1.shared.filter (fun s => s.category_id == cid)).map (fun s => s.user_id)
          let users := db1.users.filter (fun u => grantee_ids.contains u.id)
          (revoke_all_shares db1 cid, users)
        else
          (db1, [])

/-- `handlers.categories.get_share_code`: refuse private categories, reuse a
truthy stored code, otherwise fall back to `ensure_share_code` (whose failure
is caught by the handler, leaving the store unchanged). -/
def get_share_code (db : DB) (category_id : Nat)
    (choices : Nat → Nat → Fin CODE_ALPHABET.length) : DB × Option String :=
  match get_category_by_id db category_id with
  | none => (db, none)
  | some category =>
    if category.sharing_type == .priv then (db, none)
    else
      match category.share_link with
      | some s =>
        if !s.isEmpty then (db, some s)
        else
          match ensure_share_code db category_id ACCESS_CODE_LENGTH choices with
          | .ok (code, db') => (db', some code)
          | .error _ => (db, none)
      | none =>
        match ensure_share_code db category_id ACCESS_CODE_LENGTH choices with
        | .ok (code, db') => (db', some code)
        | .error _ => (db, none)

/-- Default of `config.ACCESS_CODE_MAX_ATTEMPTS`. -/
def ACCESS_CODE_MAX_ATTEMPTS : Nat := 5

/-- Default of `config.ACCESS_CODE_BLOCK_SECONDS`. -/
def ACCESS_CODE_BLOCK_SECONDS : Nat := 900

/-- The per-user attempt counter key in the TTL store: the value of the key
(absent when `val = none`) and its remaining expiry (`ttl = none` means the key
never expires). -/
structure RedisState where
  val : Option Nat := none
  ttl : Option Nat := none
deriving DecidableEq, Repr

/-- `GET`: the counter value, if the key exists. -/
def redisGet (st : RedisState) : Option Nat := st.val

/-- `TTL`: -2 for a missing key, -1 for a key without expiry, else the
remaining seconds. -/
def redisTtl (st : RedisState) : Int :=
  match st.val with
  | none => -2
  | some _ =>
    match st.ttl with
    | none => -1
    | some t => (t : Int)

/-- `INCR`: creates the key at 1 (without expiry) or increments it, returning
the new value. -/
def redisIncr (st : RedisState) : RedisState × Nat :=
  match st.val with
  | none => ({ val := some 1, ttl := none }, 1)
  | some v => ({ st with val := some (v + 1) }, v + 1)

/-- `EXPIRE`: sets the expiry of an existing key; no effect on a missing key. -/
def redisExpire (st : RedisState) (seconds : Nat) : RedisState :=
  match st.val with
  | none => st
  | some _ => { st with ttl := some seconds }

/-- `DELETE`: removes the key. -/
def redisDelete (_st : RedisState) : RedisState := {}

/-- Wall-clock progress of `n` seconds: a key with an expiry counts down and
vanishes when its remaining time is used up. -/
def redisTick (st : RedisState) (n : Nat) : RedisState :=
  match st.val, st.ttl with
  | some v, some t => if t ≤ n then {} else { val := some v, ttl := some (t - n) }
  | _, _ => st

/-- Failure injection for the counter store: `connF` makes
`get_redis_connection` raise; the other flags make the corresponding command
raise inside the `try` block. -/
structure RedisFaults where
  connF : Bool := false
  getF : Bool := false
  ttlF : Bool := false
  incrF : Bool := false
  expireF : Bool := false
  deleteF : Bool := false
deriving DecidableEq, Repr

/-- The fault-free counter store behaviour. -/
def noFaults : RedisFaults := {}

/-- The body of the `try` block of `_get_block_ttl`; an error carries the store
state at the moment the command raised. -/
def get_block_ttl_core (f : RedisFaults) (st : RedisState) :
    Except RedisState (RedisState × Nat) := do
  let raw ← if f.getF then .error st else .ok (redisGet st)
  match raw with
  | none => .ok (st, 0)
  | some attempts =>
    if attempts < ACCESS_CODE_MAX_ATTEMPTS then .ok (st, 0)
    else
      let t ← if f.ttlF then .error st else .ok (redisTtl st)
      if t < 0 then
        let st1 ← if f.expireF then .error st else .ok (redisExpire st ACCESS_CODE_BLOCK_SECONDS)
        .ok (st1, ACCESS_CODE_BLOCK_SECONDS)
      else
        .ok (st, t.toNat)

/-- `handlers.access_codes._get_block_ttl`: fails open to 0 when the connection
or any command raises. -/
def get_block_ttl (f : RedisFaults) (st : RedisState) : RedisState × Nat :=
  if f.connF then (st, 0)
  else
    match get_block_ttl_core f st with
    | .ok r => r
    | .error s => (s, 0)

/-- The increment arm of `_register_failed_attempt` (`attempts = incr(key)`
onwards). -/
def register_failed_attempt_incr (f : RedisFaults) (st : RedisState) :
    Except RedisState (RedisState × Nat) := do
  let (st1, attempts) ← if f.incrF then .error st else .ok (redisIncr st)
  let st2 ←
    if attempts = 1 then
      if f.expireF then .error st1 else .ok (redisExpire st1 ACCESS_CODE_BLOCK_SECONDS)
    else .ok st1
  if attempts ≥ ACCESS_CODE_MAX_ATTEMPTS then
    let t ← if f.ttlF then .error st2 else .ok (redisTtl st2)
    if t < 0 then
      let st3 ← if f.expireF then .error st2 else .ok (redisExpire st2 ACCESS_CODE_BLOCK_SECONDS)
      .ok (st3, ACCESS_CODE_BLOCK_SECONDS)
    else
      .ok (st2, t.toNat)
  else
    .ok (st2, 0)

/-- The body of the `try` block of `_register_failed_attempt`. -/
def register_failed_attempt_core (f : RedisFaults) (st : RedisState) :
    Except RedisState (RedisState × Nat) := do
  let raw ← if f.getF then .error st else .ok (redisGet st)
  match raw with
  | some v =>
    if v ≥ ACCESS_CODE_MAX_ATTEMPTS then
      let t ← if f.ttlF then .error st else .ok (redisTtl st)
      if t < 0 then
        let st1 ← if f.expireF then .error st else .ok (redisExpire st ACCESS_CODE_BLOCK_SECONDS)
        .ok (st1, ACCESS_CODE_BLOCK_SECONDS)
      else
        .ok (st, t.toNat)
    else
      register_failed_attempt_incr f st
  | none => register_failed_attempt_incr f st

/-- `handlers.access_codes._register_failed_attempt`: fails open to 0 when the
connection or any command raises. -/
def register_failed_attempt (f : RedisFaults) (st : RedisState) : RedisState × Nat :=
  if f.connF then (st, 0)
  else
    match register_failed_attempt_core f st with
    | .ok r => r
    | .error s => (s, 0)

/-- `handlers.access_codes._reset_attempts`: best-effort delete of the counter. -/
def reset_attempts (f : RedisFaults) (st : RedisState) : RedisState :=
  if f.connF || f.deleteF then st else redisDelete st

/-- Outcome of `handlers.access_codes.process_access_code`; the `Nat` carried
by the failure outcomes is the block TTL returned by
`_register_failed_attempt` (0 means the plain error message is shown). -/
inductive RedeemOutcome where
  | blocked (ttl : Nat)
  | emptyInput
  | invalidFormat (ttl : Nat)
  | notFound (ttl : Nat)
  | privateCategory (ttl : Nat)
  | selfOwned
  | alreadyMember
  | granted (can_edit : Bool)
deriving DecidableEq, Repr

/-- Python `str.isalnum` on the (ASCII) code text. -/
def pyIsAlnum (s : String) : Bool :=
  !s.isEmpty && s.toList.all (fun c => c.isAlphanum)

/-- `handlers.access_codes.process_access_code` (the Back-button branch aside):
the rate-limit gate, format validation counting as a failed attempt, lookup by
code, the private / self-owned / already-member refusals, and the grant with
`can_edit` iff the category is collaborative. -/
def process_access_code (f : RedisFaults) (st : RedisState) (db : DB)
    (user_id : Nat) (text : String) : RedisState × DB × RedeemOutcome :=
  let (st, current_block) := get_block_ttl f st
  if current_block ≠ 0 then (st, db, .blocked current_block)
  else if text.isEmpty then (st, db, .emptyInput)
  else
    let code := text.trim.toUpper
    if code.length ≠ ACCESS_CODE_LENGTH || !pyIsAlnum code then
      let (st1, ttl) := register_failed_attempt f st
      (st1, db, .invalidFormat ttl)
    else
      match get_category_by_share_link db code with
      | none =>
        let (st1, ttl) := register_failed_attempt f st
        (st1, db, .notFound ttl)
      | some category =>
        if category.sharing_type == .priv then
          let (st1, ttl) := register_failed_attempt f st
          (st1, db, .privateCategory ttl)
        else if category.owner_id == user_id then
          (st, db, .selfOwned)
        else
          match check_user_access db category.id user_id with
          | some _ => (reset_attempts f st, db, .alreadyMember)
          | none =>
            let can_edit := category.sharing_type == .collaborative
            let (db', _) := add_user_access db category.id user_id can_edit
            (reset_attempts f st, db', .granted can_edit)

/-- The category-lifecycle operations reachable from the handlers: creating a
category, changing its sharing type, showing (and so possibly issuing) its
share code, and redeeming an access code. -/
inductive COp where
  | create (name : String) (owner_id : Nat) (sharing_type : SharingType) (rand : String)
  | changeSharing (category_id : Option Nat) (sharing_type : SharingType)
      (choices : Nat → Nat → Fin CODE_ALPHABET.length)
  | getCode (category_id : Nat) (choices : Nat → Nat → Fin CODE_ALPHABET.length)
  | redeem (user_id : Nat) (text : String)

/-- Effect of one category operation on the store (redemption is run against a
fresh fault-free counter store; it never touches the category table). -/
def applyCOp (db : DB) : COp → DB
  | .create name owner_id sharing_type rand =>
    (process_category_sharing_type db name owner_id sharing_type rand).1
  | .changeSharing category_id sharing_type choices =>
    (process_sharing_type_change db category_id sharing_type choices).1
  | .getCode category_id choices =>
    (get_share_code db category_id choices).1
  | .redeem user_id text =>
    (process_access_code noFaults {} db user_id text).2.1

/-- The store after a sequence of category operations, starting empty. -/
def applyCOps (ops : List COp) : DB :=
  ops.foldl applyCOp {}

/-- The sharing invariant of the spec: a category is private exactly when its
share code is null (and `share_link` being a single nullable column, a
non-private category carries exactly one live code). -/
def sharingInvariant (db : DB) : Prop :=
  ∀ c ∈ db.categories, c.sharing_type = .priv ↔ c.share_link = none

/-- Auxiliary structural invariant: category ids are pairwise distinct and
below the id counter (they are assigned from it). -/
def categoryIdsSound (db : DB) : Prop :=
  (db.categories.map Category.id).Nodup ∧ ∀ c ∈ db.categories, c.id < db.next_category_id

/-- A sequence of failed redemptions separated by the listed wall-clock gaps
(in seconds): one failure, then for each gap the clock advances and the next
failure is registered; returns the final counter state and the TTL returned by
the last registration. -/
def failuresWithGaps (gaps : List Nat) : RedisState × Nat :=
  gaps.foldl (fun acc g => register_failed_attempt noFaults (redisTick acc.1 g))
    (register_failed_attempt noFaults {})

/-- A concrete draw stream: always the first alphabet character. -/
def constantChoice : Nat → Nat → Fin CODE_ALPHABET.length :=
  fun _ _ => ⟨0, by decide⟩

/-- Example store for C1: user 1 owns category 10, user 2 holds a
collaborative grant on it and added item 100 to it. -/
def C1db : DB :=
  { users := [{ id := 1 }, { id := 2 }],
    categories := [{ id := 10, owner_id := 1, sharing_type := .collaborative,
                     share_link := some "ABCDEFGHJK" }],
    items := [{ id := 100, category_id := 10, owner_id := 2, created_at := 5 }],
    shared := [{ id := 1, category_id := 10, user_id := 2, can_edit := true }],
    next_category_id := 11, next_shared_id := 2 }

/-- The collaborator-added item of `C1db`. -/
def C1item : Item := { id := 100, category_id := 10, owner_id := 2, created_at := 5 }

/-- Example store for C2: user 7 owns one item priced 100. -/
def C2db : DB := { items := [{ id := 1, owner_id := 7, price := some 100 }] }

/-- The priced item of `C2db`. -/
def C2item : Item := { id := 1, owner_id := 7, price := some 100 }

/-- Example store for C3: user 7 owns an item with date range [1, 12]. -/
def C3db : DB := { items := [{ id := 1, owner_id := 7, date_from := some 1, date_to := some 12 }] }

/-- The ranged item of `C3db`. -/
def C3item : Item := { id := 1, owner_id := 7, date_from := some 1, date_to := some 12 }

/-- Example store for the spec's own date example: an open-ended item dated
2025-01-10. -/
def C3db2 : DB := { items := [{ id := 1, owner_id := 7, date_from := some 20250110 }] }

/-- The open-ended item of `C3db2`. -/
def C3item2 : Item := { id := 1, owner_id := 7, date_from := some 20250110 }

/-- Example store for C6: category 10 (view_only) with grants for users 2 and
3. -/
def C6db : DB :=
  { users := [{ id := 1 }, { id := 2 }, { id := 3 }],
    categories := [{ id := 10, owner_id := 1, sharing_type := .view_only,
                     share_link := some "ABCDEFGHJK" }],
    shared := [{ id := 1, category_id := 10, user_id := 2 },
               { id := 2, category_id := 10, user_id := 3 }],
    next_category_id := 11, next_shared_id := 3 }

/-- The shared category of `C6db`. -/
def C6cat : Category :=
  { id := 10, owner_id := 1, sharing_type := .view_only, share_link := some "ABCDEFGHJK" }

/-- Example store for C7: a view_only category without a code yet. -/
def C7db : DB :=
  { categories := [{ id := 1, owner_id := 1, sharing_type := .view_only }],
    next_category_id := 2 }

/-- The codeless category of `C7db`. -/
def C7cat : Category := { id := 1, owner_id := 1, sharing_type := .view_only }

/-- Example store for C10: category 10 shared to user 2 with edit rights. -/
def C10db : DB :=
  { users := [{ id := 1 }, { id := 2 }],
    categories := [{ id := 10, owner_id := 1, sharing_type := .collaborative,
                     share_link := some "ABCDEFGHJK" }],
    shared := [{ id := 4, category_id := 10, user_id := 2, can_edit := true }],
    next_category_id := 11, next_shared_id := 5 }

/-- The existing grant of `C10db`. -/
def C10grant : SharedCategory := { id := 4, category_id := 10, user_id := 2, can_edit := true }

/-- A fault pattern where the counter-store connection raises. -/
def C8faults : RedisFaults := { connF := true }

/-- A nonempty counter state (7 failures, 5 seconds left). -/
def C8state : RedisState := { val := some 7, ttl := some 5 }

theorem mem_insertByCreatedDesc {x a : Item} {l : List Item} :
    a ∈ insertByCreatedDesc x l ↔ a = x ∨ a ∈ l := by
  induction l with
  | nil => simp [insertByCreatedDesc]
  | cons y ys ih =>
    simp only [insertByCreatedDesc]
    split
    · simp
    · simp [ih]
      tauto

theorem mem_sortByCreatedDesc {a : Item} {l : List Item} :
    a ∈ sortByCreatedDesc l ↔ a ∈ l := by
  induction l with
  | nil => simp [sortByCreatedDesc]
  | cons y ys ih => simp [sortByCreatedDesc, mem_insertByCreatedDesc, ih]

theorem mem_filter_items {db : DB} {u : Nat} {f : Filters} {i : Item} :
    i ∈ filter_items db u f ↔
      i ∈ db.items ∧ filter_items_base db u i = true ∧ filter_clauses f i = true := by
  unfold filter_items
  rw [mem_sortByCreatedDesc]
  simp only [List.mem_filter]
  tauto

theorem filter_items_base_iff {db : DB} {u : Nat} {i : Item} :
    filter_items_base db u i = true ↔
      (i.owner_id = u ∨ ∃ s ∈ db.shared, s.user_id = u ∧ s.category_id = i.category_id) := by
  simp [filter_items_base, shared_category_ids, List.mem_filter]
  tauto

/-- C1 (amended): for every user and filter set, `filter_items` returns
exactly the items the user owns or the items whose category the user holds a
SharedAccess grant on, further narrowed (intersection, never widened) by the
filter clauses.  Unlike `get_items_accessible_to_user`, the base set does NOT
include items that merely sit in a category the user owns (e.g. items added by
collaborators to the user's own category). -/
theorem C1_filter_items_visibility (db : DB) (u : Nat) (f : Filters) (i : Item) :
    i ∈ filter_items db u f ↔
      i ∈ db.items ∧
      (i.owner_id = u ∨ ∃ s ∈ db.shared, s.user_id = u ∧ s.category_id = i.category_id) ∧
      filter_clauses f i = true := by
  rw [mem_filter_items, filter_items_base_iff]

/-- C1 counterexample: in `C1db`, user 1 owns category 10 and item 100 was
added there by collaborator 2, so the claim places item 100 in user 1's base
set (as `get_items_accessible_to_user` indeed does), yet `filter_items`
without filters omits it. -/
theorem C1_counterexample_owned_category_item :
    C1item ∉ filter_items C1db 1 {} ∧
    C1item ∈ get_items_accessible_to_user C1db 1 ∧
    (∃ c ∈ C1db.categories, c.owner_id = 1 ∧ c.id = C1item.category_id) := by
  decide

/-- C2 (amended): with a truthy `price_exact`, every returned item's price
equals it, and truthy `price_min` / `price_max` bounds still constrain the
result as further conjuncts — `price_exact` does not short-circuit them. -/
theorem C2_price_filters_conjoined (db : DB) (u : Nat) (f : Filters) (e : Int)
    (hexact : f.price_exact = some e) (hne : e ≠ 0) :
    ∀ i ∈ filter_items db u f,
      i.price = some e ∧
      (∀ m, f.price_min = some m → m ≠ 0 → sqlGeInt i.price m = true) ∧
      (∀ M, f.price_max = some M → M ≠ 0 → sqlLeInt i.price M = true) := by
  intro i hi
  rw [mem_filter_items] at hi
  obtain ⟨-, -, hc⟩ := hi
  unfold filter_clauses at hc
  simp only [Bool.and_eq_true] at hc
  obtain ⟨⟨⟨⟨⟨⟨⟨⟨⟨h1, h2⟩, hmin⟩, hmax⟩, hex⟩, h6⟩, h7⟩, h8⟩, h9⟩, h10⟩ := hc
  rw [hexact] at hex
  have htr : truthyInt (some e) = true := by simp [truthyInt, hne]
  rw [htr, if_pos rfl] at hex
  have hprice : i.price = some e := by
    cases hp : i.price with
    | none => rw [hp] at hex; simp [sqlEqInt] at hex
    | some p =>
      rw [hp] at hex
      simp only [sqlEqInt, Option.getD] at hex
      have := beq_iff_eq.mp hex
      rw [this]
  refine ⟨hprice, ?_, ?_⟩
  · intro m hm hmne
    rw [hm] at hmin
    have : truthyInt (some m) = true := by simp [truthyInt, hmne]
    rw [this, if_pos rfl] at hmin
    simpa using hmin
  · intro M hM hMne
    rw [hM] at hmax
    have : truthyInt (some M) = true := by simp [truthyInt, hMne]
    rw [this, if_pos rfl] at hmax
    simpa using hmax

/-- C2 counterexample: the item priced 100 is returned for
`{price_exact: 100}` but dropped as soon as `price_min: 200` is added, so
`price_min` is not ignored as the claim states. -/
theorem C2_counterexample_bounds_not_ignored :
    C2item.price = some 100 ∧
    C2item ∈ filter_items C2db 7 { price_exact := some 100 } ∧
    C2item ∉ filter_items C2db 7 { price_exact := some 100, price_min := some 200 } := by
  decide

/-- Witness for C2 at `price_exact = 100`, `price_min = 20`. -/
theorem C2_witness :
    C2item ∈ filter_items C2db 7 { price_exact := some 100, price_min := some 20 } ∧
    C2item.price = some 100 :=
  ⟨by decide, (C2_price_filters_conjoined C2db 7 { price_exact := some 100, price_min := some 20 }
      100 rfl (by decide) C2item (by decide)).1⟩

/-- C3 (amended): under a date window `[a, b]`, an item is returned iff it is
base-visible, its `date_from` is at least `a`, and either its `date_to` is at
most `b` or it has no `date_to` and its `date_from` is at most `b`.  So an item
with only `date_from` is included exactly when that date falls inside the
window (the spec's concrete example holds), but an item with both dates is
included only when its whole range nests inside the window — its `date_to`
falling inside the window is not sufficient. -/
theorem C3_date_range_semantics (db : DB) (u : Nat) (a b : Nat) :
    (∀ i, i ∈ filter_items db u { date_from := some a, date_to := some b } ↔
      i ∈ db.items ∧ filter_items_base db u i = true ∧
      ((∃ d, i.date_from = some d ∧ a ≤ d) ∧
       ((∃ t, i.date_to = some t ∧ t ≤ b) ∨
        (i.date_to = none ∧ ∃ d, i.date_from = some d ∧ d ≤ b)))) ∧
    C3item2 ∈ filter_items C3db2 7 { date_from := some 20250101, date_to := some 20250115 } ∧
    C3item2 ∉ filter_items C3db2 7 { date_from := some 20250111, date_to := some 20250120 } := by
  refine ⟨?_, by decide, by decide⟩
  intro i
  rw [mem_filter_items]
  have hcl : filter_clauses { date_from := some a, date_to := some b } i = true ↔
      ((∃ d, i.date_from = some d ∧ a ≤ d) ∧
       ((∃ t, i.date_to = some t ∧ t ≤ b) ∨
        (i.date_to = none ∧ ∃ d, i.date_from = some d ∧ d ≤ b))) := by
    unfold filter_clauses
    simp only [truthyNat, truthyStr, truthyInt, truthyDate, if_false, if_true,
      Bool.and_eq_true, Bool.or_eq_true]
    cases hdf : i.date_from <;> cases hdt : i.date_to <;>
      simp [sqlGeDate, sqlLeDate, hdf, hdt]
  rw [hcl]

/-- C3 counterexample: the item with range [1, 12] has its `date_to` inside
the window [5, 15], so the claim includes it, yet the code excludes it
because its `date_from` precedes the window. -/
theorem C3_counterexample_nested_range :
    C3item ∉ filter_items C3db 7 { date_from := some 5, date_to := some 15 } ∧
    C3item.date_to = some 12 ∧ 5 ≤ 12 ∧ 12 ≤ 15 := by decide

/-- C9: falsy filter values (zero numbers, the empty tag, category id 0) leave
`filter_items` exactly as unfiltered, by the Python truthiness guards. -/
theorem C9_falsy_filters_ignored (db : DB) (u : Nat) :
    filter_items db u { price_exact := some 0 } = filter_items db u {} ∧
    filter_items db u { category_id := some 0, tag := some "", price_min := some 0,
                        price_max := some 0, price_exact := some 0 } = filter_items db u {} :=
  ⟨rfl, rfl⟩

/-- C10: `add_user_access` never creates a second grant row for an existing
(category, user) pair: with an existing grant it either flips that grant's
`can_edit` in place (same row id, same row count) or returns the store
untouched; a fresh row is appended only when no grant exists. -/
theorem C10_no_duplicate_grant (db : DB) (cid uid : Nat) (ce : Bool) :
    (∀ ex, check_user_access db cid uid = some ex →
      (ex.can_edit ≠ ce →
        add_user_access db cid uid ce =
          ({ db with shared := db.shared.map (fun s => if s.id == ex.id then { ex with can_edit := ce } else s) },
           { ex with can_edit := ce })) ∧
      (ex.can_edit = ce → add_user_access db cid uid ce = (db, ex)) ∧
      (add_user_access db cid uid ce).1.shared.length = db.shared.length) ∧
    (check_user_access db cid uid = none →
      add_user_access db cid uid ce =
        ({ db with
            shared := db.shared ++ [{ id := db.next_shared_id, category_id := cid, user_id := uid, can_edit := ce }],
            next_shared_id := db.next_shared_id + 1 },
         { id := db.next_shared_id, category_id := cid, user_id := uid, can_edit := ce })) := by
  constructor
  · intro ex hex
    by_cases h : ex.can_edit = ce
    · have heq : add_user_access db cid uid ce = (db, ex) := by
        unfold add_user_access
        rw [hex]
        simp [h]
      exact ⟨fun hne => absurd h hne, fun _ => heq, by rw [heq]⟩
    · have heq : add_user_access db cid uid ce =
          ({ db with shared := db.shared.map (fun s => if s.id == ex.id then { ex with can_edit := ce } else s) },
           { ex with can_edit := ce }) := by
        unfold add_user_access
        rw [hex]
        simp [h, bne_iff_ne]
      refine ⟨fun _ => heq, fun hc => absurd hc h, ?_⟩
      rw [heq]
      simp
  · intro hnone
    unfold add_user_access
    rw [hnone]

/-- Witness for C10 on `C10db`: reusing, flipping and inserting a grant. -/
theorem C10_witness :
    add_user_access C10db 10 2 true = (C10db, C10grant) ∧
    (add_user_access C10db 10 2 false).1.shared.length = C10db.shared.length ∧
    add_user_access C10db 10 4 false =
      ({ C10db with
          shared := C10db.shared ++ [{ id := C10db.next_shared_id, category_id := 10, user_id := 4, can_edit := false }],
          next_shared_id := C10db.next_shared_id + 1 },
       { id := C10db.next_shared_id, category_id := 10, user_id := 4, can_edit := false }) := by
  refine ⟨?_, ?_, ?_⟩
  · exact ((C10_no_duplicate_grant C10db 10 2 true).1 C10grant rfl).2.1 rfl
  · exact ((C10_no_duplicate_grant C10db 10 2 false).1 C10grant rfl).2.2
  · exact (C10_no_duplicate_grant C10db 10 4 false).2 rfl

theorem secure_code_value_length (length : Nat) (choice : Nat → Fin CODE_ALPHABET.length) :
    (secure_code_value length choice).length = length := by
  simp [secure_code_value, String.length]

theorem secure_code_value_mem (length : Nat) (choice : Nat → Fin CODE_ALPHABET.length) :
    ∀ c ∈ (secure_code_value length choice).toList, c ∈ CODE_ALPHABET := by
  intro c hc
  simp [secure_code_value, String.toList] at hc
  obtain ⟨i, -, rfl⟩ := hc
  apply List.getElem_mem

theorem gen_loop_ok {db : DB} {length : Nat} {choices : Nat → Nat → Fin CODE_ALPHABET.length}
    (hlen : length ≠ 0) :
    ∀ (attempts : List Nat) (code : String),
      generate_unique_share_code_loop db length choices attempts = .ok code →
      (∃ a ∈ attempts, code = secure_code_value length (choices a)) ∧
      get_category_by_share_link db code = none := by
  intro attempts
  induction attempts with
  | nil => intro code h; simp [generate_unique_share_code_loop] at h
  | cons a rest ih =>
    intro code h
    unfold generate_unique_share_code_loop at h
    rw [generate_secure_code, if_neg hlen] at h
    simp only [bind, Except.bind] at h
    by_cases hfree : (get_category_by_share_link db (secure_code_value length (choices a))).isNone
    · rw [if_pos hfree] at h
      cases h
      exact ⟨⟨a, by simp, rfl⟩, Option.isNone_iff_eq_none.mp hfree⟩
    · rw [if_neg hfree] at h
      obtain ⟨⟨b, hb, rfl⟩, hnone⟩ := ih code h
      exact ⟨⟨b, by simp [hb], rfl⟩, hnone⟩

theorem gen_loop_exhausted {db : DB} {length : Nat} {choices : Nat → Nat → Fin CODE_ALPHABET.length}
    (hlen : length ≠ 0) :
    ∀ attempts : List Nat,
      (generate_unique_share_code_loop db length choices attempts = .error .exhausted ↔
        ∀ a ∈ attempts, (get_category_by_share_link db (secure_code_value length (choices a))).isSome = true) := by
  intro attempts
  induction attempts with
  | nil => simp [generate_unique_share_code_loop]
  | cons a rest ih =>
    unfold generate_unique_share_code_loop
    rw [generate_secure_code, if_neg hlen]
    simp only [bind, Except.bind]
    by_cases hfree : (get_category_by_share_link db (secure_code_value length (choices a))).isNone
    · rw [if_pos hfree]
      simp only [List.mem_cons]
      constructor
      · intro h; cases h
      · intro h
        have := h a (Or.inl rfl)
        rw [Option.isNone_iff_eq_none.mp hfree] at this
        simp at this
    · rw [if_neg hfree]
      rw [ih]
      simp only [List.mem_cons]
      constructor
      · intro h b hb
        rcases hb with rfl | hb
        · simpa [Option.isSome_iff_ne_none, Option.isNone_iff_eq_none] using hfree
        · exact h b hb
      · intro h b hb
        exact h b (Or.inr hb)

/-- C7: `ensure_share_code` returns the category's existing code when present
and of the configured (positive) length; otherwise every code it returns has
exactly `length` characters drawn from the unambiguous alphabet, collides with
no existing category, and is persisted — and it fails with the exhaustion
error precisely when all 40 candidate draws collide. -/
theorem C7_ensure_share_code_spec (db : DB) (catId length : Nat)
    (choices : Nat → Nat → Fin CODE_ALPHABET.length) (category : Category)
    (hlen : 0 < length) (hfind : get_category_by_id db catId = some category) :
    (∀ s, category.share_link = some s → s.length = length →
      ensure_share_code db catId length choices = .ok (s, db)) ∧
    ((∀ s, category.share_link = some s → s.length ≠ length) →
      (∀ code db2, ensure_share_code db catId length choices = .ok (code, db2) →
        code.length = length ∧ (∀ c ∈ code.toList, c ∈ CODE_ALPHABET) ∧
        get_category_by_share_link db code = none ∧
        db2 = update_share_link db catId (some code)) ∧
      (ensure_share_code db catId length choices = .error .exhausted ↔
        ∀ a ∈ List.range 40,
          (get_category_by_share_link db (secure_code_value length (choices a))).isSome = true)) := by
  have hlen' : length ≠ 0 := Nat.pos_iff_ne_zero.mp hlen
  constructor
  · intro s hs hsl
    have hne : ¬s.isEmpty := by
      intro hemp
      rw [String.isEmpty_iff] at hemp
      subst hemp
      simp [String.length] at hsl
      omega
    unfold ensure_share_code
    rw [hfind]
    dsimp only
    rw [hs]
    dsimp only
    rw [if_pos (by simp [hne, hsl])]
  · intro hother
    have hgen : ensure_share_code db catId length choices =
        (do
          let code ← generate_unique_share_code db length choices
          (.ok (code, update_share_link db catId (some code)) : Except CodeError (String × DB))) := by
      unfold ensure_share_code
      rw [hfind]
      dsimp only
      cases hs : category.share_link with
      | none => rfl
      | some s =>
        have := hother s hs
        dsimp only
        rw [if_neg (by simp [this])]
    constructor
    · intro code db2 hok
      rw [hgen] at hok
      cases hg : generate_unique_share_code db length choices with
      | error e => rw [hg] at hok; simp [bind, Except.bind] at hok
      | ok c =>
        obtain ⟨⟨a, -, hval⟩, hnone⟩ := gen_loop_ok hlen' (List.range 40) c hg
        rw [hg] at hok
        simp only [bind, Except.bind, Except.ok.injEq, Prod.mk.injEq] at hok
        obtain ⟨rfl, rfl⟩ := hok
        subst hval
        exact ⟨secure_code_value_length _ _, secure_code_value_mem _ _, hnone, rfl⟩
    · rw [hgen]
      cases hg : generate_unique_share_code db length choices with
      | error e =>
        simp only [bind, Except.bind]
        unfold generate_unique_share_code at hg
        constructor
        · intro h
          cases h
          exact (gen_loop_exhausted hlen' (List.range 40)).mp hg
        · intro h
          rw [(gen_loop_exhausted hlen' (List.range 40)).mpr h] at hg
          cases hg
          rfl
      | ok c =>
        simp only [bind, Except.bind]
        constructor
        · intro h; cases h
        · intro h
          unfold generate_unique_share_code at hg
          rw [(gen_loop_exhausted hlen' (List.range 40)).mpr h] at hg
          cases hg

/-- Witness for C7 on `C7db`: a fresh code is generated, alphabet-only,
collision-free and persisted. -/
theorem C7_witness :
    0 < 10 ∧
    ensure_share_code C7db 1 10 constantChoice =
      .ok ("AAAAAAAAAA", update_share_link C7db 1 (some "AAAAAAAAAA")) ∧
    "AAAAAAAAAA".length = 10 ∧ (∀ c ∈ "AAAAAAAAAA".toList, c ∈ CODE_ALPHABET) ∧
    get_category_by_share_link C7db "AAAAAAAAAA" = none := by
  have h := C7_ensure_share_code_spec C7db 1 10 constantChoice C7cat (by decide) rfl
  have hok : ensure_share_code C7db 1 10 constantChoice =
      .ok ("AAAAAAAAAA", update_share_link C7db 1 (some "AAAAAAAAAA")) := rfl
  have h2 := (h.2 (by intro s hs; simp [C7cat] at hs)).1 "AAAAAAAAAA"
      (update_share_link C7db 1 (some "AAAAAAAAAA")) hok
  exact ⟨by decide, hok, h2.1, h2.2.1, h2.2.2.1⟩

theorem length_filter_by_id (users : List User) (S : List Nat)
    (hU : (users.map User.id).Nodup) (hS : S.Nodup)
    (hsub : ∀ a ∈ S, a ∈ users.map User.id) :
    (users.filter (fun u => S.contains u.id)).length = S.length := by
  have hmap : List.filter (fun i => S.contains i) (users.map User.id)
      = (users.filter (fun u => S.contains u.id)).map User.id := by
    rw [List.filter_map]
    rfl
  have hperm : ((users.map User.id).filter (fun i => S.contains i)).Perm S := by
    rw [List.perm_ext_iff_of_nodup (hU.filter _) hS]
    intro a
    simp only [List.mem_filter]
    constructor
    · rintro ⟨-, h⟩
      simpa using h
    · intro h
      exact ⟨hsub a h, by simpa using h⟩
  have := hperm.length_eq
  rw [hmap] at this
  simpa using this

/-- C6: a shared-to-private transition leaves zero SharedAccess rows for the
category, clears its code and sets it private, and the collected revoked-user
list covers every grantee and has exactly one entry per grant (assuming the
relational invariants: unique user ids, one grant per user, grantees exist). -/
theorem C6_revoke_on_private_transition (db : DB) (cid : Nat)
    (choices : Nat → Nat → Fin CODE_ALPHABET.length) (category : Category)
    (hfind : get_category_by_id db cid = some category)
    (hshared : category.sharing_type.isShared = true)
    (hU : (db.users.map User.id).Nodup)
    (hG : ((db.shared.filter (fun s => s.category_id == cid)).map (fun s => s.user_id)).Nodup)
    (hcov : ∀ s ∈ db.shared, s.category_id = cid → s.user_id ∈ db.users.map User.id) :
    ((process_sharing_type_change db (some cid) .priv choices).1.shared.filter
        (fun s => s.category_id == cid)).length = 0 ∧
    (∀ c ∈ (process_sharing_type_change db (some cid) .priv choices).1.categories,
      c.id = cid → c.sharing_type = .priv ∧ c.share_link = none) ∧
    (process_sharing_type_change db (some cid) .priv choices).2.length =
      (db.shared.filter (fun s => s.category_id == cid)).length ∧
    (∀ s ∈ db.shared, s.category_id = cid →
      ∃ u ∈ (process_sharing_type_change db (some cid) .priv choices).2, u.id = s.user_id) := by
  have hres : process_sharing_type_change db (some cid) .priv choices =
      (revoke_all_shares (update_category_sharing db cid .priv none) cid,
       db.users.filter (fun u =>
         ((db.shared.filter (fun s => s.category_id == cid)).map (fun s => s.user_id)).contains u.id)) := by
    unfold process_sharing_type_change
    dsimp only
    rw [hfind]
    dsimp only
    rw [show SharingType.priv.isShared = false from rfl, hshared]
    rfl
  rw [hres]
  refine ⟨?_, ?_, ?_, ?_⟩
  · simp [revoke_all_shares, update_category_sharing, List.filter_filter]
  · intro c hc hcid
    simp only [revoke_all_shares, update_category_sharing, List.mem_map] at hc
    obtain ⟨c0, -, rfl⟩ := hc
    by_cases h : c0.id == cid
    · rw [if_pos h]
      exact ⟨rfl, rfl⟩
    · rw [if_neg h] at hcid ⊢
      exact absurd (by simp [hcid]) h
  · have hlen := length_filter_by_id db.users
      ((db.shared.filter (fun s => s.category_id == cid)).map (fun s => s.user_id)) hU hG (by
        intro a ha
        simp only [List.mem_map, List.mem_filter] at ha
        obtain ⟨s, ⟨hs, hcid⟩, rfl⟩ := ha
        exact hcov s hs (by simpa using hcid))
    simpa using hlen
  · intro s hs hcid
    have hmem : s.user_id ∈ db.users.map User.id := hcov s hs hcid
    simp only [List.mem_map] at hmem
    obtain ⟨u, hu, huid⟩ := hmem
    refine ⟨u, ?_, huid⟩
    simp only [List.mem_filter]
    refine ⟨hu, ?_⟩
    have : s.user_id ∈ (db.shared.filter (fun x => x.category_id == cid)).map (fun x => x.user_id) := by
      simp only [List.mem_map, List.mem_filter]
      exact ⟨s, ⟨hs, by simp [hcid]⟩, rfl⟩
    rw [huid]
    simpa using this

/-- Witness for C6 on `C6db` (two grantees): no rows remain and two users are
collected. -/
theorem C6_witness :
    ((process_sharing_type_change C6db (some 10) .priv constantChoice).1.shared.filter
        (fun s => s.category_id == 10)).length = 0 ∧
    (process_sharing_type_change C6db (some 10) .priv constantChoice).2.length =
      (C6db.shared.filter (fun s => s.category_id == 10)).length := by
  have h := C6_revoke_on_private_transition C6db 10 constantChoice C6cat rfl
    (by decide) (by decide) (by decide) (by decide)
  exact ⟨h.1, h.2.2.1⟩

theorem isShared_false_iff (t : SharingType) : t.isShared = false ↔ t = .priv := by
  cases t <;> simp [SharingType.isShared]

theorem ids_update_category_sharing (db : DB) (cid : Nat) (t : SharingType) (l : Option String) :
    (update_category_sharing db cid t l).categories.map Category.id =
      db.categories.map Category.id := by
  simp only [update_category_sharing, List.map_map]
  apply List.map_congr_left
  intro c _
  by_cases h : c.id == cid <;> simp [h, Function.comp]

theorem ids_update_share_link (db : DB) (cid : Nat) (l : Option String) :
    (update_share_link db cid l).categories.map Category.id =
      db.categories.map Category.id := by
  simp only [update_share_link, List.map_map]
  apply List.map_congr_left
  intro c _
  by_cases h : c.id == cid <;> simp [h, Function.comp]

theorem find_unique {db : DB} {cid : Nat} {category : Category}
    (hN : (db.categories.map Category.id).Nodup)
    (hfind : get_category_by_id db cid = some category) :
    ∀ c ∈ db.categories, c.id = cid → c = category := by
  intro c hc hcid
  have hfind2 : db.categories.find? (fun c => c.id == cid) = some category := hfind
  have hmem : category ∈ db.categories := List.mem_of_find?_eq_some hfind2
  have hp := List.find?_some hfind2
  have hcatid : category.id = cid := by simpa using hp
  exact List.inj_on_of_nodup_map hN hc hmem (by rw [hcid, hcatid])

theorem inv_update_category_sharing {db : DB} {cid : Nat} {t : SharingType} {l : Option String}
    (h : t = .priv ↔ l = none) (hInv : sharingInvariant db) :
    sharingInvariant (update_category_sharing db cid t l) := by
  intro c hc
  simp only [update_category_sharing, List.mem_map] at hc
  obtain ⟨c0, hc0, rfl⟩ := hc
  by_cases hid : c0.id == cid
  · rw [if_pos hid]
    exact h
  · rw [if_neg hid]
    exact hInv c0 hc0

theorem ensure_share_code_db {db : DB} {cid L : Nat}
    {ch : Nat → Nat → Fin CODE_ALPHABET.length} {code : String} {db2 : DB}
    (h : ensure_share_code db cid L ch = .ok (code, db2)) :
    db2 = db ∨ db2 = update_share_link db cid (some code) := by
  unfold ensure_share_code at h
  cases hf : get_category_by_id db cid with
  | none => rw [hf] at h; cases h
  | some category =>
    rw [hf] at h
    dsimp only at h
    cases hs : category.share_link with
    | some s =>
      rw [hs] at h
      dsimp only at h
      by_cases hcond : (!s.isEmpty && s.length == L) = true
      · rw [if_pos hcond] at h
        cases h
        exact Or.inl rfl
      · rw [if_neg hcond] at h
        cases hg : generate_unique_share_code db L ch with
        | error e => rw [hg] at h; simp [bind, Except.bind] at h
        | ok c =>
          rw [hg] at h
          simp only [bind, Except.bind, Except.ok.injEq, Prod.mk.injEq] at h
          obtain ⟨rfl, rfl⟩ := h
          exact Or.inr rfl
    | none =>
      rw [hs] at h
      dsimp only at h
      cases hg : generate_unique_share_code db L ch with
      | error e => rw [hg] at h; simp [bind, Except.bind] at h
      | ok c =>
        rw [hg] at h
        simp only [bind, Except.bind, Except.ok.injEq, Prod.mk.injEq] at h
        obtain ⟨rfl, rfl⟩ := h
        exact Or.inr rfl

theorem create_preserves (db : DB) (n : String) (o : Nat) (st : SharingType) (rand : String)
    (hS : categoryIdsSound db) (hI : sharingInvariant db) :
    categoryIdsSound (process_category_sharing_type db n o st rand).1 ∧
    sharingInvariant (process_category_sharing_type db n o st rand).1 := by
  obtain ⟨hnd, hbound⟩ := hS
  have hnotmem : db.next_category_id ∉ db.categories.map Category.id := by
    intro hmem
    simp only [List.mem_map] at hmem
    obtain ⟨c, hc, hcid⟩ := hmem
    exact absurd hcid (Nat.ne_of_lt (hbound c hc))
  unfold process_category_sharing_type
  dsimp only
  by_cases hsh : st.isShared
  · rw [if_pos hsh]
    dsimp only
    constructor
    · constructor
      · rw [ids_update_category_sharing]
        simp only [List.map_append, List.map_cons, List.map_nil]
        rw [List.nodup_append]
        exact ⟨hnd, List.nodup_singleton _, by simpa using hnotmem⟩
      · intro c hc
        simp only [update_category_sharing, List.mem_map, List.mem_append, List.mem_singleton] at hc
        obtain ⟨c0, hc0, rfl⟩ := hc
        have hid : (if (c0.id == db.next_category_id) = true
            then { c0 with sharing_type := st, share_link := some ("share_" ++ toString db.next_category_id ++ "_" ++ rand) } else c0).id = c0.id := by
          by_cases h : c0.id == db.next_category_id <;> simp [h]
        rw [hid]
        rcases hc0 with hc0 | rfl
        · exact Nat.lt_succ_of_lt (hbound c0 hc0)
        · exact Nat.lt_succ_self _
    · intro c hc
      simp only [update_category_sharing, List.mem_map, List.mem_append, List.mem_singleton] at hc
      obtain ⟨c0, hc0, rfl⟩ := hc
      by_cases h : c0.id == db.next_category_id
      · rw [if_pos h]
        have : st ≠ .priv := by
          intro he
          rw [he] at hsh
          simp [SharingType.isShared] at hsh
        simp [this]
      · rw [if_neg h]
        rcases hc0 with hc0 | rfl
        · exact hI c0 hc0
        · simp at h
  · rw [if_neg hsh]
    have hpriv : st = .priv := (isShared_false_iff st).mp (by simpa using hsh)
    refine ⟨⟨?_, ?_⟩, ?_⟩
    · simp only [List.map_append, List.map_cons, List.map_nil]
      rw [List.nodup_append]
      exact ⟨hnd, List.nodup_singleton _, by simpa using hnotmem⟩
    · intro c hc
      simp only [List.mem_append, List.mem_singleton] at hc
      rcases hc with hc | rfl
      · exact Nat.lt_succ_of_lt (hbound c hc)
      · exact Nat.lt_succ_self _
    · intro c hc
      simp only [List.mem_append, List.mem_singleton] at hc
      rcases hc with hc | rfl
      · exact hI c hc
      · simp [hpriv]

theorem sound_update_category_sharing {db : DB} {cid : Nat} {t : SharingType} {l : Option String}
    (hS : categoryIdsSound db) : categoryIdsSound (update_category_sharing db cid t l) := by
  obtain ⟨hnd, hbound⟩ := hS
  constructor
  · rw [ids_update_category_sharing]; exact hnd
  · intro c hc
    simp only [update_category_sharing, List.mem_map] at hc
    obtain ⟨c0, hc0, rfl⟩ := hc
    have : (if (c0.id == cid) = true
        then { c0 with sharing_type := t, share_link := l } else c0).id = c0.id := by
      by_cases h : c0.id == cid <;> simp [h]
    rw [this]
    exact hbound c0 hc0

theorem sound_update_share_link {db : DB} {cid : Nat} {l : Option String}
    (hS : categoryIdsSound db) : categoryIdsSound (update_share_link db cid l) := by
  obtain ⟨hnd, hbound⟩ := hS
  constructor
  · rw [ids_update_share_link]; exact hnd
  · intro c hc
    simp only [update_share_link, List.mem_map] at hc
    obtain ⟨c0, hc0, rfl⟩ := hc
    have : (if (c0.id == cid) = true then { c0 with share_link := l } else c0).id = c0.id := by
      by_cases h : c0.id == cid <;> simp [h]
    rw [this]
    exact hbound c0 hc0

theorem changeSharing_preserves (db : DB) (cidOpt : Option Nat) (st : SharingType)
    (ch : Nat → Nat → Fin CODE_ALPHABET.length)
    (hS : categoryIdsSound db) (hI : sharingInvariant db) :
    categoryIdsSound (process_sharing_type_change db cidOpt st ch).1 ∧
    sharingInvariant (process_sharing_type_change db cidOpt st ch).1 := by
  unfold process_sharing_type_change
  cases cidOpt with
  | none => exact ⟨hS, hI⟩
  | some cid =>
    dsimp only
    cases hf : get_category_by_id db cid with
    | none => exact ⟨hS, hI⟩
    | some category =>
      dsimp only
      by_cases hsh : st.isShared = true
      · rw [hsh, if_pos rfl]
        have hnp : st ≠ .priv := by
          intro he; rw [he] at hsh; simp [SharingType.isShared] at hsh
        cases hsl : category.share_link with
        | some s =>
          dsimp only
          by_cases hemp : (!s.isEmpty) = true
          · rw [if_pos hemp]
            dsimp only
            by_cases hg : (category.sharing_type.isShared && st == .priv) = true
            · rw [if_pos hg]
              exact ⟨sound_update_category_sharing hS,
                inv_update_category_sharing (by simp [hnp]) hI⟩
            · rw [if_neg hg]
              exact ⟨sound_update_category_sharing hS,
                inv_update_category_sharing (by simp [hnp]) hI⟩
          · rw [if_neg hemp]
            cases hgen : generate_unique_share_code db ACCESS_CODE_LENGTH ch with
            | error e => exact ⟨hS, hI⟩
            | ok c =>
              simp only [Except.map]
              by_cases hg : (category.sharing_type.isShared && st == .priv) = true
              · rw [if_pos hg]
                exact ⟨sound_update_category_sharing hS,
                  inv_update_category_sharing (by simp [hnp]) hI⟩
              · rw [if_neg hg]
                exact ⟨sound_update_category_sharing hS,
                  inv_update_category_sharing (by simp [hnp]) hI⟩
        | none =>
          dsimp only
          cases hgen : generate_unique_share_code db ACCESS_CODE_LENGTH ch with
          | error e => exact ⟨hS, hI⟩
          | ok c =>
            simp only [Except.map]
            by_cases hg : (category.sharing_type.isShared && st == .priv) = true
            · rw [if_pos hg]
              exact ⟨sound_update_category_sharing hS,
                inv_update_category_sharing (by simp [hnp]) hI⟩
            · rw [if_neg hg]
              exact ⟨sound_update_category_sharing hS,
                inv_update_category_sharing (by simp [hnp]) hI⟩
      · rw [Bool.not_eq_true] at hsh
        rw [hsh, if_neg (by simp)]
        dsimp only
        have hpriv : st = .priv := (isShared_false_iff st).mp hsh
        by_cases hg : (category.sharing_type.isShared && st == .priv) = true
        · rw [if_pos hg]
          exact ⟨sound_update_category_sharing hS,
            inv_update_category_sharing (by simp [hpriv]) hI⟩
        · rw [if_neg hg]
          exact ⟨sound_update_category_sharing hS,
            inv_update_category_sharing (by simp [hpriv]) hI⟩

theorem getCode_preserves (db : DB) (cid : Nat) (ch : Nat → Nat → Fin CODE_ALPHABET.length)
    (hS : categoryIdsSound db) (hI : sharingInvariant db) :
    categoryIdsSound (get_share_code db cid ch).1 ∧
    sharingInvariant (get_share_code db cid ch).1 := by
  unfold get_share_code
  cases hf : get_category_by_id db cid with
  | none => exact ⟨hS, hI⟩
  | some category =>
    dsimp only
    by_cases hp : (category.sharing_type == SharingType.priv) = true
    · rw [if_pos hp]
      exact ⟨hS, hI⟩
    · rw [if_neg hp]
      have hnp : category.sharing_type ≠ .priv := by simpa using hp
      have hens : ∀ code db2, ensure_share_code db cid ACCESS_CODE_LENGTH ch = .ok (code, db2) →
          categoryIdsSound db2 ∧ sharingInvariant db2 := by
        intro code db2 he
        rcases ensure_share_code_db he with rfl | rfl
        · exact ⟨hS, hI⟩
        · refine ⟨sound_update_share_link hS, ?_⟩
          intro c hc
          simp only [update_share_link, List.mem_map] at hc
          obtain ⟨c0, hc0, rfl⟩ := hc
          by_cases hid : (c0.id == cid) = true
          · rw [if_pos hid]
            have hc0eq : c0 = category := find_unique hS.1 hf c0 hc0 (by simpa using hid)
            subst hc0eq
            simp [hnp]
          · rw [if_neg hid]
            exact hI c0 hc0
      cases hsl : category.share_link with
      | some s =>
        dsimp only
        by_cases hemp : (!s.isEmpty) = true
        · rw [if_pos hemp]
          exact ⟨hS, hI⟩
        · rw [if_neg hemp]
          cases he : ensure_share_code db cid ACCESS_CODE_LENGTH ch with
          | error e => exact ⟨hS, hI⟩
          | ok pr => exact hens pr.1 pr.2 (by rw [he])
      | none =>
        dsimp only
        cases he : ensure_share_code db cid ACCESS_CODE_LENGTH ch with
        | error e => exact ⟨hS, hI⟩
        | ok pr => exact hens pr.1 pr.2 (by rw [he])

theorem add_user_access_categories (db : DB) (cid uid : Nat) (ce : Bool) :
    (add_user_access db cid uid ce).1.categories = db.categories ∧
    (add_user_access db cid uid ce).1.next_category_id = db.next_category_id := by
  unfold add_user_access
  cases check_user_access db cid uid with
  | none => exact ⟨rfl, rfl⟩
  | some existing =>
    dsimp only
    by_cases h : (existing.can_edit != ce) = true
    · rw [if_pos h]
      exact ⟨rfl, rfl⟩
    · rw [if_neg h]
      exact ⟨rfl, rfl⟩

theorem process_access_code_categories (f : RedisFaults) (st : RedisState) (db : DB)
    (u : Nat) (text : String) :
    (process_access_code f st db u text).2.1.categories = db.categories ∧
    (process_access_code f st db u text).2.1.next_category_id = db.next_category_id := by
  unfold process_access_code
  dsimp only
  split
  · exact ⟨rfl, rfl⟩
  · split
    · exact ⟨rfl, rfl⟩
    · split
      · exact ⟨rfl, rfl⟩
      · split
        · exact ⟨rfl, rfl⟩
        · split
          · exact ⟨rfl, rfl⟩
          · split
            · exact ⟨rfl, rfl⟩
            · split
              · exact ⟨rfl, rfl⟩
              · exact add_user_access_categories db _ u _

theorem applyCOp_preserves (db : DB) (op : COp)
    (hS : categoryIdsSound db) (hI : sharingInvariant db) :
    categoryIdsSound (applyCOp db op) ∧ sharingInvariant (applyCOp db op) := by
  cases op with
  | create name owner_id sharing_type rand =>
    exact create_preserves db name owner_id sharing_type rand hS hI
  | changeSharing category_id sharing_type choices =>
    exact changeSharing_preserves db category_id sharing_type choices hS hI
  | getCode category_id choices =>
    exact getCode_preserves db category_id choices hS hI
  | redeem user_id text =>
    have h := process_access_code_categories noFaults {} db user_id text
    unfold applyCOp
    constructor
    · constructor
      · rw [h.1]
        exact hS.1
      · intro c hc
        rw [h.1] at hc
        rw [h.2]
        exact hS.2 c hc
    · intro c hc
      rw [h.1] at hc
      exact hI c hc

/-- C5: every store reachable from the empty store through the category
operations (create, change sharing type, show/issue share code, redeem a code)
satisfies the sharing invariant: a category is private exactly when its share
code is null — and the single nullable `share_link` column means a non-private
category carries exactly one live code. -/
theorem C5_sharing_code_invariant (ops : List COp) : sharingInvariant (applyCOps ops) := by
  suffices h : ∀ db, categoryIdsSound db → sharingInvariant db →
      categoryIdsSound (ops.foldl applyCOp db) ∧ sharingInvariant (ops.foldl applyCOp db) by
    refine (h {} ⟨by simp, by intro c hc; simp at hc⟩ ?_).2
    intro c hc
    simp at hc
  induction ops with
  | nil => exact fun db hS hI => ⟨hS, hI⟩
  | cons op rest ih =>
    intro db hS hI
    have hstep := applyCOp_preserves db op hS hI
    exact ih (applyCOp db op) hstep.1 hstep.2

theorem register_empty :
    register_failed_attempt noFaults {} = ({ val := some 1, ttl := some ACCESS_CODE_BLOCK_SECONDS }, 0) := by
  rfl

theorem tick_lt {v t g : Nat} (h : g < t) :
    redisTick { val := some v, ttl := some t } g = { val := some v, ttl := some (t - g) } := by
  simp [redisTick]
  omega

theorem register_below {v t : Nat} (h1 : 1 ≤ v) (h2 : v + 1 < ACCESS_CODE_MAX_ATTEMPTS) :
    register_failed_attempt noFaults { val := some v, ttl := some t } =
      ({ val := some (v + 1), ttl := some t }, 0) := by
  unfold register_failed_attempt register_failed_attempt_core register_failed_attempt_incr
  simp only [noFaults, redisGet, redisIncr, redisTtl, redisExpire, bind, Except.bind]
  have ha : ¬ (v ≥ ACCESS_CODE_MAX_ATTEMPTS) := by omega
  have hb : ¬ (v + 1 = 1) := by omega
  have hc : ¬ (v + 1 ≥ ACCESS_CODE_MAX_ATTEMPTS) := by omega
  simp [ha, hb, hc]

theorem register_reach_max {v t : Nat} (h1 : 1 ≤ v) (h2 : v + 1 = ACCESS_CODE_MAX_ATTEMPTS) :
    register_failed_attempt noFaults { val := some v, ttl := some t } =
      ({ val := some (v + 1), ttl := some t }, t) := by
  unfold register_failed_attempt register_failed_attempt_core register_failed_attempt_incr
  simp only [noFaults, redisGet, redisIncr, redisTtl, redisExpire, bind, Except.bind]
  have ha : ¬ (v ≥ ACCESS_CODE_MAX_ATTEMPTS) := by omega
  have hb : ¬ (v + 1 = 1) := by omega
  have hc : v + 1 ≥ ACCESS_CODE_MAX_ATTEMPTS := by omega
  have hd : ¬ ((t : Int) < 0) := by omega
  simp [ha, hb, hc, hd]

theorem register_at_max {v t : Nat} (h : v ≥ ACCESS_CODE_MAX_ATTEMPTS) :
    register_failed_attempt noFaults { val := some v, ttl := some t } =
      ({ val := some v, ttl := some t }, t) := by
  unfold register_failed_attempt register_failed_attempt_core
  simp only [noFaults, redisGet, redisTtl, redisExpire, bind, Except.bind]
  have hd : ¬ ((t : Int) < 0) := by omega
  simp [h, hd]

theorem get_block_ttl_at_max {v t : Nat} (h : v ≥ ACCESS_CODE_MAX_ATTEMPTS) :
    get_block_ttl noFaults { val := some v, ttl := some t } =
      ({ val := some v, ttl := some t }, t) := by
  unfold get_block_ttl get_block_ttl_core
  simp only [noFaults, redisGet, redisTtl, redisExpire, bind, Except.bind]
  have ha : ¬ (v < ACCESS_CODE_MAX_ATTEMPTS) := by omega
  have hd : ¬ ((t : Int) < 0) := by omega
  simp [ha, hd]

/-- C4 counterexample: five failures where 100 seconds elapse inside the
window leave the counter blocking for the remaining 800 seconds — not for
`ACCESS_CODE_BLOCK_SECONDS` — and the expiry is not re-set to the block
duration. -/
theorem C4_counterexample_remaining_ttl :
    (failuresWithGaps [100, 0, 0, 0]).2 = 800 ∧
    get_block_ttl noFaults (failuresWithGaps [100, 0, 0, 0]).1 =
      ((failuresWithGaps [100, 0, 0, 0]).1, 800) ∧
    (failuresWithGaps [100, 0, 0, 0]).1.ttl = some 800 ∧
    800 ≠ ACCESS_CODE_BLOCK_SECONDS := by decide

/-- C4 (amended): after `ACCESS_CODE_MAX_ATTEMPTS` failed redemptions within
the window, the registration returns the counter's remaining TTL —
`ACCESS_CODE_BLOCK_SECONDS` minus the time elapsed since the first failure —
the pre-check reports the same positive TTL, and any further redemption
attempt (whatever its code) is rejected as blocked for that long; below the
threshold 0 is returned, and a successful redemption's reset empties the
counter, after which the pre-check reports 0. -/
theorem C4_rate_limit_window (g1 g2 g3 g4 : Nat)
    (hsum : g1 + g2 + g3 + g4 < ACCESS_CODE_BLOCK_SECONDS) :
    (failuresWithGaps [g1, g2, g3, g4]).2 =
      ACCESS_CODE_BLOCK_SECONDS - (g1 + g2 + g3 + g4) ∧
    0 < (failuresWithGaps [g1, g2, g3, g4]).2 ∧
    get_block_ttl noFaults (failuresWithGaps [g1, g2, g3, g4]).1 =
      ((failuresWithGaps [g1, g2, g3, g4]).1,
        ACCESS_CODE_BLOCK_SECONDS - (g1 + g2 + g3 + g4)) ∧
    (∀ (db : DB) (u : Nat) (text : String),
      process_access_code noFaults (failuresWithGaps [g1, g2, g3, g4]).1 db u text =
        ((failuresWithGaps [g1, g2, g3, g4]).1, db,
          .blocked (ACCESS_CODE_BLOCK_SECONDS - (g1 + g2 + g3 + g4)))) ∧
    reset_attempts noFaults (failuresWithGaps [g1, g2, g3, g4]).1 = {} ∧
    get_block_ttl noFaults {} = ({}, 0) ∧
    (∀ v t, 1 ≤ v → v + 1 < ACCESS_CODE_MAX_ATTEMPTS →
      (register_failed_attempt noFaults { val := some v, ttl := some t }).2 = 0) := by
  have hB : (900 : Nat) = ACCESS_CODE_BLOCK_SECONDS := rfl
  have hg1 : g1 < ACCESS_CODE_BLOCK_SECONDS := by omega
  have hg2 : g2 < ACCESS_CODE_BLOCK_SECONDS - g1 := by omega
  have hg3 : g3 < ACCESS_CODE_BLOCK_SECONDS - g1 - g2 := by omega
  have hg4 : g4 < ACCESS_CODE_BLOCK_SECONDS - g1 - g2 - g3 := by omega
  have hstate : failuresWithGaps [g1, g2, g3, g4] =
      ({ val := some 5, ttl := some (ACCESS_CODE_BLOCK_SECONDS - (g1 + g2 + g3 + g4)) },
        ACCESS_CODE_BLOCK_SECONDS - (g1 + g2 + g3 + g4)) := by
    unfold failuresWithGaps
    simp only [List.foldl]
    rw [register_empty]
    rw [tick_lt hg1, register_below (by omega) (by decide)]
    rw [tick_lt hg2, register_below (by omega) (by decide)]
    rw [tick_lt hg3, register_below (by omega) (by decide)]
    rw [tick_lt hg4, register_reach_max (by omega) (by decide)]
    have he : ACCESS_CODE_BLOCK_SECONDS - g1 - g2 - g3 - g4 =
        ACCESS_CODE_BLOCK_SECONDS - (g1 + g2 + g3 + g4) := by omega
    rw [he]
  have hpos : 0 < ACCESS_CODE_BLOCK_SECONDS - (g1 + g2 + g3 + g4) := by omega
  refine ⟨by rw [hstate], by rw [hstate]; exact hpos, ?_, ?_, ?_, rfl, ?_⟩
  · rw [hstate]
    exact get_block_ttl_at_max (by decide)
  · intro db u text
    unfold process_access_code
    rw [hstate]
    rw [get_block_ttl_at_max (by decide)]
    dsimp only
    rw [if_pos (by omega)]
  · rw [hstate]
    rfl
  · intro v t h1 h2
    rw [register_below h1 h2]

theorem get_block_ttl_empty : get_block_ttl noFaults {} = ({}, 0) := rfl

theorem get_block_ttl_conn_fail {f : RedisFaults} (st : RedisState) (h : f.connF = true) :
    get_block_ttl f st = (st, 0) := by
  unfold get_block_ttl
  rw [h]
  simp

theorem register_conn_fail {f : RedisFaults} (st : RedisState) (h : f.connF = true) :
    register_failed_attempt f st = (st, 0) := by
  unfold register_failed_attempt
  rw [h]
  simp

theorem process_outcome_congr (f1 f2 : RedisFaults) (st1 st2 : RedisState)
    (db : DB) (u : Nat) (text : String)
    (hblock : (get_block_ttl f1 st1).2 = (get_block_ttl f2 st2).2)
    (hreg : (register_failed_attempt f1 (get_block_ttl f1 st1).1).2 =
      (register_failed_attempt f2 (get_block_ttl f2 st2).1).2) :
    (process_access_code f1 st1 db u text).2 = (process_access_code f2 st2 db u text).2 := by
  unfold process_access_code
  rcases h1 : get_block_ttl f1 st1 with ⟨a1, b1⟩
  rcases h2 : get_block_ttl f2 st2 with ⟨a2, b2⟩
  rw [h1, h2] at hblock hreg
  dsimp only at hblock hreg
  subst hblock
  dsimp only
  by_cases hb : b1 ≠ 0
  · rw [if_pos hb, if_pos hb]
  · rw [if_neg hb, if_neg hb]
    by_cases ht : text.isEmpty
    · rw [if_pos ht, if_pos ht]
    · rw [if_neg ht, if_neg ht]
      rcases r1 : register_failed_attempt f1 a1 with ⟨c1, d1⟩
      rcases r2 : register_failed_attempt f2 a2 with ⟨c2, d2⟩
      rw [r1, r2] at hreg
      dsimp only at hreg
      subst hreg
      by_cases hfmt : (decide (text.trim.toUpper.length ≠ ACCESS_CODE_LENGTH) || !pyIsAlnum text.trim.toUpper) = true
      · rw [if_pos hfmt, if_pos hfmt]
      · rw [if_neg hfmt, if_neg hfmt]
        cases hlook : get_category_by_share_link db text.trim.toUpper with
        | none => rfl
        | some category =>
          dsimp only
          by_cases hpriv : (category.sharing_type == SharingType.priv) = true
          · rw [if_pos hpriv, if_pos hpriv]
          · rw [if_neg hpriv, if_neg hpriv]
            by_cases howner : (category.owner_id == u) = true
            · rw [if_pos howner, if_pos howner]
            · rw [if_neg howner, if_neg howner]
              cases hacc : check_user_access db category.id u with
              | some g => rfl
              | none => rfl

/-- C8: with the counter store unreachable, both the block pre-check and the
failed-attempt registration return 0 and redemption proceeds exactly as with a
fault-free empty counter (same store update, same outcome — the authorization
decision is never degraded); and whenever any counter command raises inside
either function, the error is swallowed and 0 returned. -/
theorem C8_rate_limiter_fails_open (f : RedisFaults) (st : RedisState) (db : DB)
    (u : Nat) (text : String) (hconn : f.connF = true) :
    get_block_ttl f st = (st, 0) ∧
    register_failed_attempt f st = (st, 0) ∧
    (process_access_code f st db u text).2 = (process_access_code noFaults {} db u text).2 ∧
    (∀ (f2 : RedisFaults) (st2 s : RedisState), f2.connF = false →
      (get_block_ttl_core f2 st2 = .error s → get_block_ttl f2 st2 = (s, 0)) ∧
      (register_failed_attempt_core f2 st2 = .error s →
        register_failed_attempt f2 st2 = (s, 0))) := by
  refine ⟨get_block_ttl_conn_fail st hconn, register_conn_fail st hconn, ?_, ?_⟩
  · apply process_outcome_congr
    · rw [get_block_ttl_conn_fail st hconn, get_block_ttl_empty]
    · rw [get_block_ttl_conn_fail st hconn, get_block_ttl_empty]
      rw [register_conn_fail st hconn, register_empty]
  · intro f2 st2 s hc2
    constructor
    · intro he
      unfold get_block_ttl
      rw [hc2]
      simp [he]
    · intro he
      unfold register_failed_attempt
      rw [hc2]
      simp [he]

/-- Witness for C4 with gaps 10, 20, 0, 30 seconds. -/
theorem C4_witness :
    10 + 20 + 0 + 30 < ACCESS_CODE_BLOCK_SECONDS ∧
    (failuresWithGaps [10, 20, 0, 30]).2 = ACCESS_CODE_BLOCK_SECONDS - (10 + 20 + 0 + 30) ∧
    0 < (failuresWithGaps [10, 20, 0, 30]).2 :=
  ⟨by decide, (C4_rate_limit_window 10 20 0 30 (by decide)).1,
    (C4_rate_limit_window 10 20 0 30 (by decide)).2.1⟩

/-- Witness for C8 on a failing connection and a nonempty counter. -/
theorem C8_witness :
    C8faults.connF = true ∧
    get_block_ttl C8faults C8state = (C8state, 0) ∧
    register_failed_attempt C8faults C8state = (C8state, 0) ∧
    (process_access_code C8faults C8state C1db 3 "abcdefghjk").2 =
      (process_access_code noFaults {} C1db 3 "abcdefghjk").2 := by
  have h := C8_rate_limiter_fails_open C8faults C8state C1db 3 "abcdefghjk" rfl
  exact ⟨rfl, h.1, h.2.1, h.2.2.1⟩
